import Mathlib

/-!
Verification of the queue interception and callback dispatch engine of
rocprofiler-sdk (source/lib/rocprofiler/hsa/queue_controller.{hpp,cpp}).

The C++ `std::unordered_map` containers are embedded as key-unique
association lists (`List (K × V)`); iteration order of an unordered map is
unspecified in C++, and every property proved here is insensitive to it.
Pointers and opaque handles (`hsa_queue_t*`, `hsa_agent_t.handle`,
`rocprofiler_agent_id_t.handle`, callback function pointers) are embedded
as `Nat` tags.  `ClientID` (declared in queue.hpp, outside the provided
sources) is embedded as `Nat` following the spec: an opaque, monotonically
increasing integer allocated from a counter starting at 1.
-/

namespace RocprofilerHsa

/-- Association-list lookup: first pair whose key matches. -/
def lookupA {K V : Type} [DecidableEq K] : List (K × V) → K → Option V
  | [], _ => none
  | p :: rest, k => if p.1 = k then some p.2 else lookupA rest k

/-- Association-list erase, the model of `map.erase(k)`: drop every pair with the key. -/
def eraseA {K V : Type} [DecidableEq K] : List (K × V) → K → List (K × V)
  | [], _ => []
  | p :: rest, k => if p.1 = k then eraseA rest k else p :: eraseA rest k

/-- Association-list store, the model of `map[k] = v` on an unordered map:
the pair for `k` is replaced (position in the list is irrelevant to every
property proved here, matching the unspecified iteration order). -/
def insertA {K V : Type} [DecidableEq K] (l : List (K × V)) (k : K) (v : V) : List (K × V) :=
  eraseA l k ++ [(k, v)]

/-- Map over the values of an association list, keys unchanged (the model of
mutating each entry of an unordered map in place during iteration). -/
def mapValsA {K V : Type} (f : K → V → V) (l : List (K × V)) : List (K × V) :=
  l.map (fun p => (p.1, f p.1 p.2))

/-- Keys of an association list are pairwise distinct. -/
def keysUniq {K V : Type} (l : List (K × V)) : Prop :=
  l.Pairwise (fun a b => a.1 ≠ b.1)

/-- Model of `ClientID` (queue.hpp is outside the provided sources; the spec
describes it as an opaque monotonically increasing integer). -/
abbrev ClientID := Nat

/-- Model of `rocprofiler_agent_type_t` from include/rocprofiler/fwd.h. -/
inductive AgentType where
  | NONE
  | CPU
  | GPU
  | LAST
  deriving DecidableEq, Repr

/-- Fields of `rocprofiler_agent_t` the queue controller reads: `id.handle`
(compared in add_queue/add_callback) and `type` (filtered in init). -/
structure RocpAgent where
  id_handle : Nat
  type : AgentType
  deriving DecidableEq, Repr

/-- Model of `rocprofiler::hsa::AgentCache`: `agent_t()` returns the
`rocprofiler_agent_t`, `get_agent()` returns the `hsa_agent_t` whose `handle`
the create-queue hook compares, and the cache is keyed by the enumeration
ordinal `index`.  (The class itself lives outside the provided sources.) -/
structure AgentCache where
  rocp_agent : RocpAgent
  hsa_agent_handle : Nat
  index : Nat
  deriving DecidableEq, Repr

/-- Model of the function-pointer slot `CoreApiTable::hsa_queue_create_fn`:
either some native runtime entry point (opaque tag) or the controller's
`create_queue` hook. -/
inductive QueueCreateFn where
  | native (tag : Nat)
  | hook
  deriving DecidableEq, Repr

/-- Model of the function-pointer slot `CoreApiTable::hsa_queue_destroy_fn`. -/
inductive QueueDestroyFn where
  | native (tag : Nat)
  | hook
  deriving DecidableEq, Repr

/-- The two slots of `CoreApiTable` that `QueueController::init` may overwrite. -/
structure CoreApiTable where
  hsa_queue_create_fn : QueueCreateFn
  hsa_queue_destroy_fn : QueueDestroyFn
  deriving DecidableEq, Repr

/-- `AmdExtTable`, opaque to the queue controller (stored, never inspected). -/
structure AmdExtTable where
  tag : Nat
  deriving DecidableEq, Repr

/-- Modelled from the spec: a Proxy Queue (`rocprofiler::hsa::Queue`,
declared in queue.hpp outside the provided sources).  Per spec section 4.3 it
stores the owning agent's cache entry, the native queue handle, the original
error-callback and user-data, and a private map from Subscription Identifier
to (pre-dispatch callback, completion callback) — the subscription snapshot,
empty at construction.  Callback function pointers are opaque `Nat` tags. -/
structure Queue where
  agent : AgentCache
  native_handle : Nat
  err_cb : Nat
  user_data : Nat
  callbacks : List (ClientID × Nat × Nat)
  deriving DecidableEq, Repr

/-- Modelled from the spec: `Queue::register_callback(id, pre, post)` is an
idempotent insert (`map[id] = value`) into the subscription snapshot. -/
def Queue.register_callback (q : Queue) (id : ClientID) (qcb ccb : Nat) : Queue :=
  { q with callbacks := insertA q.callbacks id (qcb, ccb) }

/-- Modelled from the spec: `Queue::remove_callback(id)` is an idempotent
erase from the subscription snapshot. -/
def Queue.remove_callback (q : Queue) (id : ClientID) : Queue :=
  { q with callbacks := eraseA q.callbacks id }

/-- Registry entry stored by `QueueController::add_callback`:
`std::tuple(agent, qcb, ccb)`. -/
abbrev RegEntry := RocpAgent × Nat × Nat

/-- State of `rocprofiler::hsa::QueueController` (queue_controller.hpp):
`_core_table`, `_ext_table`, `_queues` (live-queue table), `_callback_cache`
(callback registry) and `_supported_agents`.  `next_client_id` models the
process-wide `static std::atomic<ClientID> client_id = 1` local to
`add_callback`. -/
structure QueueController where
  core_table : CoreApiTable
  ext_table : AmdExtTable
  queues : List (Nat × Queue)
  callback_cache : List (ClientID × RegEntry)
  supported_agents : List (Nat × AgentCache)
  next_client_id : ClientID
  deriving DecidableEq, Repr

/-- The backfill loop of `QueueController::add_queue` (queue_controller.cpp
lines 81-88): for every registry entry whose agent `id.handle` equals the new
queue's agent `id.handle`, register it with the queue. -/
def backfillQueue (callbacks : List (ClientID × RegEntry)) (queue : Queue) : Queue :=
  callbacks.foldl
    (fun q p =>
      if p.2.1.id_handle = q.agent.rocp_agent.id_handle then
        q.register_callback p.1 p.2.2.1 p.2.2.2
      else q)
    queue

/-- `QueueController::add_queue` (queue_controller.cpp lines 73-91): store the
queue under its handle (`map[id] = std::move(queue)`), then register every
registry entry whose agent matches the queue's agent.  `CHECK(queue)` cannot
fire in the model: the queue is passed by value, never null. -/
def QueueController.add_queue (s : QueueController) (id : Nat) (queue : Queue) :
    QueueController :=
  { s with queues := insertA s.queues id (backfillQueue s.callback_cache queue) }

/-- `QueueController::destory_queue` (queue_controller.cpp lines 93-97,
source spelling): erase the handle from the live-queue table. -/
def QueueController.destory_queue (s : QueueController) (id : Nat) : QueueController :=
  { s with queues := eraseA s.queues id }

/-- `QueueController::add_callback` (queue_controller.cpp lines 99-121):
read the atomic counter, store the registry entry under that id, increment
the counter, then register the callback with every live queue whose agent
`id.handle` matches; returns the id. -/
def QueueController.add_callback (s : QueueController) (agent : RocpAgent)
    (qcb ccb : Nat) : ClientID × QueueController :=
  let return_id := s.next_client_id
  (return_id,
    { s with
      callback_cache := insertA s.callback_cache return_id (agent, qcb, ccb)
      next_client_id := return_id + 1
      queues := mapValsA
        (fun _ q =>
          if q.agent.rocp_agent.id_handle = agent.id_handle then
            q.register_callback return_id qcb ccb
          else q)
        s.queues })

/-- `QueueController::remove_callback` (queue_controller.cpp lines 123-135):
erase the registry entry, then remove the id from every live queue's
subscription snapshot. -/
def QueueController.remove_callback (s : QueueController) (id : ClientID) :
    QueueController :=
  { s with
    callback_cache := eraseA s.callback_cache id
    queues := mapValsA (fun _ q => q.remove_callback id) s.queues }

/-- `hsa_status_t` values the two hooks can return. -/
inductive HsaStatus where
  | success
  | errorFatal
  deriving DecidableEq, Repr

/-- The anonymous-namespace `create_queue` hook (queue_controller.cpp lines
33-63): scan the supported-agent cache for an entry whose `hsa_agent_t`
handle equals the requested agent's handle; on a match construct a fresh
Queue (empty snapshot), `add_queue` it under the new native handle, and
return `HSA_STATUS_SUCCESS`.  If no entry matches, `LOG(FATAL)` terminates
the process: modelled as `none` (the trailing
`return HSA_STATUS_ERROR_FATAL` is unreachable). -/
def create_queue (s : QueueController) (agent_handle : Nat) (err_cb data : Nat)
    (out_handle : Nat) : Option (HsaStatus × QueueController) :=
  match s.supported_agents.find? (fun p => p.2.hsa_agent_handle == agent_handle) with
  | some p =>
    some (HsaStatus.success,
      s.add_queue out_handle (Queue.mk p.2 out_handle err_cb data []))
  | none => none

/-- The anonymous-namespace `destroy_queue` hook (queue_controller.cpp lines
65-70): call `destory_queue` and unconditionally return
`HSA_STATUS_SUCCESS`. -/
def destroy_queue (s : QueueController) (hsa_queue : Nat) : HsaStatus × QueueController :=
  (HsaStatus.success, s.destory_queue hsa_queue)

/-- Model of `rocprofiler_buffer_tracing_kind_t` (fwd.h lines 125-137). -/
inductive BufferTracingKind where
  | NONE
  | HSA_API
  | HIP_API
  | MARKER_API
  | MEMORY_COPY
  | KERNEL_DISPATCH
  | PAGE_MIGRATION
  | SCRATCH_MEMORY
  | EXTERNAL_CORRELATION
  deriving DecidableEq, Repr

/-- The buffered-tracer service of a context: `domains(kind)` reports whether
buffered tracing is configured for a given domain. -/
structure BufferedTracerService where
  domains : BufferTracingKind → Bool

/-- The two fields of `rocprofiler::context::context` that
`QueueController::init` reads: truthiness of `counter_collection` and the
optional `buffered_tracer` with its `domains` predicate. -/
structure Context where
  counter_collection : Bool
  buffered_tracer : Option BufferedTracerService

/-- The `enable_intercepter` loop of `QueueController::init`
(queue_controller.cpp lines 169-192): first context with counter collection,
or with buffered tracing for the kernel-dispatch or memory-copy domain,
enables interception and breaks. -/
def enableIntercepter : List Context → Bool
  | [] => false
  | c :: rest =>
    if c.counter_collection then true
    else
      match c.buffered_tracer with
      | some bt =>
        if bt.domains BufferTracingKind.KERNEL_DISPATCH ||
           bt.domains BufferTracingKind.MEMORY_COPY then true
        else enableIntercepter rest
      | none => enableIntercepter rest

/-- Stated from the spec, for comparison with the code's early-exit loop:
a single context needs interception when it has counter-collection enabled,
or has buffered tracing enabled for the kernel-dispatch or memory-copy
domain. -/
def contextNeedsIntercept (c : Context) : Bool :=
  c.counter_collection ||
    (match c.buffered_tracer with
     | some bt =>
       bt.domains BufferTracingKind.KERNEL_DISPATCH ||
         bt.domains BufferTracingKind.MEMORY_COPY
     | none => false)

/-- One agent descriptor supplied by `rocprofiler_query_available_agents`:
the `rocprofiler_agent_t` fields the init callback reads, the agent's
`hsa_agent_t` handle, and whether `AgentCache` construction succeeds
(the constructor, outside the provided sources, may throw `runtime_error`). -/
structure EnumAgent where
  rocp_agent : RocpAgent
  hsa_agent_handle : Nat
  cache_constructible : Bool
  deriving DecidableEq, Repr

/-- Modelled from the spec: the `AgentCache{agent, i, core, ext}` constructor
(class outside the provided sources) may throw when capability data for the
agent is insufficient; on success it records the agent and its ordinal. -/
def constructAgentCache (a : EnumAgent) (i : Nat) : Option AgentCache :=
  if a.cache_constructible then some (AgentCache.mk a.rocp_agent a.hsa_agent_handle i)
  else none

/-- The agent-enumeration callback of `QueueController::init`
(queue_controller.cpp lines 143-167): loop index `i` over all agents; skip
non-GPU agents; for GPU agents attempt `AgentCache` construction and
`emplace(i, cache)` on success, log and continue on failure.  The emplace
cannot collide: every key is a distinct loop index. -/
def gatherSupportedAgents (i : Nat) : List EnumAgent → List (Nat × AgentCache)
  | [] => []
  | a :: rest =>
    if a.rocp_agent.type = AgentType.GPU then
      match constructAgentCache a i with
      | some c => (i, c) :: gatherSupportedAgents (i + 1) rest
      | none => gatherSupportedAgents (i + 1) rest
    else gatherSupportedAgents (i + 1) rest

/-- `QueueController::init` (queue_controller.cpp lines 137-199): store the
dispatch tables, build the supported-agent cache, evaluate the interception
policy over the registered contexts (external collaborator, passed as a
parameter), and only if enabled overwrite the caller's create/destroy
function-pointer slots with the hooks.  Returns the updated controller and
the caller's (possibly overwritten) `CoreApiTable`; note the stored copy
`_core_table` keeps the native entry points. -/
def QueueController.init (s : QueueController) (core : CoreApiTable) (ext : AmdExtTable)
    (agents : List EnumAgent) (ctxs : List Context) : QueueController × CoreApiTable :=
  let s1 : QueueController :=
    { s with
      core_table := core
      ext_table := ext
      supported_agents := gatherSupportedAgents 0 agents }
  let core' : CoreApiTable :=
    if enableIntercepter ctxs then
      { core with
        hsa_queue_create_fn := QueueCreateFn.hook
        hsa_queue_destroy_fn := QueueDestroyFn.hook }
    else core
  (s1, core')

/-- Default-constructed `QueueController` singleton as of process start:
empty tables, atomic counter at 1. -/
def initialController : QueueController :=
  { core_table := CoreApiTable.mk (QueueCreateFn.native 0) (QueueDestroyFn.native 0)
    ext_table := AmdExtTable.mk 0
    queues := []
    callback_cache := []
    supported_agents := []
    next_client_id := 1 }

/-- Application queue activity flowing through the runtime's dispatch table:
a queue-create request or a queue-destroy request. -/
inductive AppEvent where
  | createReq (agent_handle err_cb data out_handle : Nat)
  | destroyReq (hsa_queue : Nat)
  deriving DecidableEq, Repr

/-- Dispatch one application request through a `CoreApiTable`: if the slot
holds the hook, the controller runs it (`none` = fatal termination); if it
holds a native entry point, the controller is never entered. -/
def dispatchEvent (table : CoreApiTable) (s : QueueController) :
    AppEvent → Option QueueController
  | AppEvent.createReq a e d hq =>
    match table.hsa_queue_create_fn with
    | QueueCreateFn.hook => (create_queue s a e d hq).map (fun r => r.2)
    | QueueCreateFn.native _ => some s
  | AppEvent.destroyReq hq =>
    match table.hsa_queue_destroy_fn with
    | QueueDestroyFn.hook => some (destroy_queue s hq).2
    | QueueDestroyFn.native _ => some s

/-- Run a sequence of application requests through the dispatch table. -/
def runAppEvents (table : CoreApiTable) (s : QueueController) :
    List AppEvent → Option QueueController
  | [] => some s
  | e :: rest => (dispatchEvent table s e).bind (fun s' => runAppEvents table s' rest)

/-- One controller-interface call, for reasoning over arbitrary call
sequences.  `addQueue` carries the construction data of the fresh Proxy
Queue handed over by the create-queue hook. -/
inductive Call where
  | addQueue (handle : Nat) (cache : AgentCache) (err_cb data : Nat)
  | addCallback (agent : RocpAgent) (qcb ccb : Nat)
  | removeCallback (id : ClientID)
  | destroyQueue (handle : Nat)
  deriving DecidableEq, Repr

/-- Controller state paired with the Subscription Identifiers returned by
the `addCallback` calls so far, in call order. -/
structure TraceState where
  ctrl : QueueController
  issued : List ClientID
  deriving DecidableEq, Repr

/-- Apply one controller call. -/
def stepCall (t : TraceState) : Call → TraceState
  | Call.addQueue h cache e d =>
    { t with ctrl := t.ctrl.add_queue h (Queue.mk cache h e d []) }
  | Call.addCallback agent qcb ccb =>
    let r := t.ctrl.add_callback agent qcb ccb
    { ctrl := r.2, issued := t.issued ++ [r.1] }
  | Call.removeCallback id => { t with ctrl := t.ctrl.remove_callback id }
  | Call.destroyQueue h => { t with ctrl := t.ctrl.destory_queue h }

/-- Run a sequence of controller calls from a given trace state. -/
def runCallsFrom (t : TraceState) (calls : List Call) : TraceState :=
  calls.foldl stepCall t

/-- Run a sequence of controller calls from the freshly constructed
controller. -/
def runCalls (calls : List Call) : TraceState :=
  runCallsFrom (TraceState.mk initialController []) calls

/-- The subscription-snapshot entry the registry prescribes for a queue on
agent `agentId` under identifier `id`: the registry's entry when its target
agent matches, nothing otherwise. -/
def snapshotOf (reg : List (ClientID × RegEntry)) (agentId : Nat) (id : ClientID) :
    Option (Nat × Nat) :=
  match lookupA reg id with
  | some e => if e.1.id_handle = agentId then some e.2 else none
  | none => none

/-- Every live Proxy Queue's subscription snapshot holds exactly the registry
entries whose target agent matches the queue's agent. -/
def snapshotsInv (s : QueueController) : Prop :=
  ∀ h q, lookupA s.queues h = some q →
    ∀ id, lookupA q.callbacks id = snapshotOf s.callback_cache q.agent.rocp_agent.id_handle id

/-- Every registry key was issued before the counter's current value. -/
def idBound (s : QueueController) : Prop :=
  ∀ id e, lookupA s.callback_cache id = some e → id < s.next_client_id

/-- Reachable-state invariant of the queue controller. -/
def goodState (s : QueueController) : Prop :=
  keysUniq s.queues ∧ keysUniq s.callback_cache ∧ snapshotsInv s ∧ idBound s ∧
    1 ≤ s.next_client_id
/-- Whether a controller call is an `add_callback` invocation. -/
def isAddCallbackCall : Call → Bool
  | Call.addCallback _ _ _ => true
  | _ => false

/-- Number of `add_callback` invocations in a call sequence. -/
def countAddCallbacks (calls : List Call) : Nat :=
  calls.countP isAddCallbackCall

/-- The two reader/writer locks of the queue controller:
`_callback_cache` (registry) and `_queues` (live-queue table). -/
inductive LockName where
  | registry
  | queueTable
  deriving DecidableEq, Repr

/-- One shared-state operation performed by the body of
`QueueController::add_callback`. -/
inductive LockAction where
  | acquire (l : LockName)
  | release (l : LockName)
  | atomicLoadCounter
  | registryStore
  | atomicIncCounter
  | queueScanRegister
  deriving DecidableEq, Repr

/-- The shared-state operations of `QueueController::add_callback`
(queue_controller.cpp lines 104-119) in program order:
`_callback_cache.wlock` entered; `return_id = client_id` (atomic load);
`cb_cache[client_id] = std::tuple(...)` (registry store); `client_id++`
(atomic increment); `_queues.wlock` entered; the queue scan registering the
callback; both locks released on scope exit, inner first. -/
def addCallbackActions : List LockAction :=
  [LockAction.acquire LockName.registry,
   LockAction.atomicLoadCounter,
   LockAction.registryStore,
   LockAction.atomicIncCounter,
   LockAction.acquire LockName.queueTable,
   LockAction.queueScanRegister,
   LockAction.release LockName.queueTable,
   LockAction.release LockName.registry]

/-- Locks held after executing a prefix of actions. -/
def locksHeldAfter (as : List LockAction) : List LockName :=
  as.foldl
    (fun held a =>
      match a with
      | LockAction.acquire l => held ++ [l]
      | LockAction.release l => held.erase l
      | _ => held)
    []

/-- Locks held at the point just before the action at index `i`. -/
def locksHeldBefore (as : List LockAction) (i : Nat) : List LockName :=
  locksHeldAfter (as.take i)

/-- Whether an action touches the atomic `client_id` counter. -/
def isCounterAction : LockAction → Bool
  | LockAction.atomicLoadCounter => true
  | LockAction.atomicIncCounter => true
  | _ => false

/-- Formalization of the claim that identifier allocation is independent of
the controller's locks: every counter operation executes while no lock is
held. -/
def counterOpsLockFree (as : List LockAction) : Bool :=
  (List.range as.length).all
    (fun i =>
      match as.get? i with
      | some a => !(isCounterAction a) || decide (locksHeldBefore as i = [])
      | none => true)

/-- Every counter operation executes while the registry write lock is held. -/
def counterOpsUnderRegistryLock (as : List LockAction) : Bool :=
  (List.range as.length).all
    (fun i =>
      match as.get? i with
      | some a => !(isCounterAction a) || decide (LockName.registry ∈ locksHeldBefore as i)
      | none => true)

/-- Number of atomic increments of the counter in an action sequence. -/
def countAtomicIncs (as : List LockAction) : Nat :=
  as.countP (fun a => a == LockAction.atomicIncCounter)

theorem lookupA_eraseA {K V : Type} [DecidableEq K] (l : List (K × V)) (k k' : K) :
    lookupA (eraseA l k) k' = if k' = k then none else lookupA l k' := by
  induction l with
  | nil => simp [lookupA, eraseA]
  | cons p rest ih =>
    by_cases hpk : p.1 = k
    · simp only [eraseA, if_pos hpk, ih, lookupA]
      by_cases hk' : k' = k
      · simp [hk']
      · have hpk' : ¬ p.1 = k' := fun h => hk' (h.symm.trans hpk)
        simp [hk', hpk']
    · simp only [eraseA, if_neg hpk, lookupA]
      by_cases hpk' : p.1 = k'
      · have hk' : ¬ k' = k := fun h => hpk (hpk'.trans h)
        simp [hpk', hk']
      · simp [hpk', ih]

theorem lookupA_append {K V : Type} [DecidableEq K] (l₁ l₂ : List (K × V)) (k : K) :
    lookupA (l₁ ++ l₂) k = ((lookupA l₁ k).rec (lookupA l₂ k) (fun v => some v) : Option V) := by
  induction l₁ with
  | nil => simp [lookupA]
  | cons p rest ih =>
    by_cases hp : p.1 = k
    · simp [lookupA, hp]
    · simp [lookupA, hp, ih]

theorem lookupA_insertA {K V : Type} [DecidableEq K] (l : List (K × V)) (k k' : K) (v : V) :
    lookupA (insertA l k v) k' = if k' = k then some v else lookupA l k' := by
  unfold insertA
  rw [lookupA_append, lookupA_eraseA]
  by_cases hk : k' = k
  · simp [hk, lookupA]
  · have hk2 : ¬ k = k' := fun hh => hk hh.symm
    cases h : lookupA l k' with
    | none => simp [hk, hk2, lookupA, h]
    | some v' => simp [hk, hk2, lookupA, h]

theorem lookupA_mapValsA {K V : Type} [DecidableEq K] (f : K → V → V) (l : List (K × V)) (k : K) :
    lookupA (mapValsA f l) k = (lookupA l k).map (f k) := by
  induction l with
  | nil => simp [lookupA, mapValsA]
  | cons p rest ih =>
    by_cases hp : p.1 = k
    · subst hp
      simp [lookupA, mapValsA]
    · simpa [lookupA, mapValsA, hp] using ih

theorem eraseA_eraseA {K V : Type} [DecidableEq K] (l : List (K × V)) (k : K) :
    eraseA (eraseA l k) k = eraseA l k := by
  induction l with
  | nil => rfl
  | cons p rest ih =>
    by_cases hp : p.1 = k
    · simp [eraseA, hp, ih]
    · simp [eraseA, hp, ih]

theorem eraseA_of_lookupA_none {K V : Type} [DecidableEq K] (l : List (K × V)) (k : K)
    (h : lookupA l k = none) : eraseA l k = l := by
  induction l with
  | nil => rfl
  | cons p rest ih =>
    by_cases hp : p.1 = k
    · simp [lookupA, hp] at h
    · simp only [lookupA, if_neg hp] at h
      simp [eraseA, hp, ih h]

theorem eraseA_sublist {K V : Type} [DecidableEq K] (l : List (K × V)) (k : K) :
    (eraseA l k).Sublist l := by
  induction l with
  | nil => exact List.Sublist.refl _
  | cons p rest ih =>
    by_cases hp : p.1 = k
    · simp only [eraseA, if_pos hp]
      exact ih.cons p
    · simp only [eraseA, if_neg hp]
      exact ih.cons₂ p

theorem keysUniq_eraseA {K V : Type} [DecidableEq K] (l : List (K × V)) (k : K)
    (h : keysUniq l) : keysUniq (eraseA l k) :=
  List.Pairwise.sublist (eraseA_sublist l k) h

theorem mem_eraseA_ne {K V : Type} [DecidableEq K] {l : List (K × V)} {k : K} {p : K × V}
    (h : p ∈ eraseA l k) : p.1 ≠ k := by
  induction l with
  | nil => cases h
  | cons q rest ih =>
    by_cases hq : q.1 = k
    · simp only [eraseA, if_pos hq] at h
      exact ih h
    · simp only [eraseA, if_neg hq] at h
      rcases List.mem_cons.mp h with h | h
      · subst h
        exact hq
      · exact ih h

theorem lookupA_eq_none_of_not_mem_keys {K V : Type} [DecidableEq K] (l : List (K × V)) (k : K)
    (h : ∀ p ∈ l, p.1 ≠ k) : lookupA l k = none := by
  induction l with
  | nil => rfl
  | cons p rest ih =>
    have hp := h p (List.mem_cons_self p rest)
    simp only [lookupA, if_neg hp]
    exact ih (fun q hq => h q (List.mem_cons_of_mem p hq))

theorem keysUniq_insertA {K V : Type} [DecidableEq K] (l : List (K × V)) (k : K) (v : V)
    (h : keysUniq l) : keysUniq (insertA l k v) := by
  unfold insertA keysUniq
  rw [List.pairwise_append]
  refine ⟨keysUniq_eraseA l k h, List.pairwise_singleton _ _, ?_⟩
  intro a ha b hb
  simp only [List.mem_singleton] at hb
  subst hb
  exact mem_eraseA_ne ha

theorem keysUniq_mapValsA {K V : Type} (f : K → V → V) (l : List (K × V))
    (h : keysUniq l) : keysUniq (mapValsA f l) := by
  unfold keysUniq mapValsA
  rw [List.pairwise_map]
  exact h.imp (fun hab => hab)

theorem lookupA_of_mem {K V : Type} [DecidableEq K] (l : List (K × V)) (p : K × V)
    (hu : keysUniq l) (hm : p ∈ l) : lookupA l p.1 = some p.2 := by
  induction l with
  | nil => cases hm
  | cons q rest ih =>
    rcases List.mem_cons.mp hm with h | h
    · subst h
      simp [lookupA]
    · have hq : q.1 ≠ p.1 := (List.pairwise_cons.mp hu).1 p h
      simp only [lookupA, if_neg hq]
      exact ih (List.pairwise_cons.mp hu).2 h

theorem mapValsA_id_of_forall {K V : Type} (f : K → V → V) (l : List (K × V))
    (h : ∀ p ∈ l, f p.1 p.2 = p.2) : mapValsA f l = l := by
  induction l with
  | nil => rfl
  | cons p rest ih =>
    simp only [mapValsA, List.map_cons]
    rw [h p (List.mem_cons_self p rest)]
    have := ih (fun q hq => h q (List.mem_cons_of_mem p hq))
    simp only [mapValsA] at this
    rw [this]

theorem Queue.register_callback_agent (q : Queue) (id : ClientID) (qcb ccb : Nat) :
    (q.register_callback id qcb ccb).agent = q.agent := rfl

theorem backfillQueue_agent (reg : List (ClientID × RegEntry)) (q : Queue) :
    (backfillQueue reg q).agent = q.agent := by
  induction reg generalizing q with
  | nil => rfl
  | cons p rest ih =>
    unfold backfillQueue at ih ⊢
    simp only [List.foldl_cons]
    by_cases hc : p.2.1.id_handle = q.agent.rocp_agent.id_handle
    · rw [if_pos hc, ih]
      exact rfl
    · rw [if_neg hc, ih]

theorem lookupA_backfillQueue (reg : List (ClientID × RegEntry)) (q : Queue)
    (hu : keysUniq reg) (id : ClientID) :
    lookupA (backfillQueue reg q).callbacks id =
      (match lookupA reg id with
       | some e =>
         if e.1.id_handle = q.agent.rocp_agent.id_handle then some e.2
         else lookupA q.callbacks id
       | none => lookupA q.callbacks id) := by
  induction reg generalizing q with
  | nil => rfl
  | cons p rest ih =>
    have hu' : keysUniq rest := (List.pairwise_cons.mp hu).2
    have hp : ∀ p' ∈ rest, p'.1 ≠ p.1 :=
      fun p' hmem => fun he => (List.pairwise_cons.mp hu).1 p' hmem he.symm
    unfold backfillQueue at ih ⊢
    simp only [List.foldl_cons]
    by_cases hc : p.2.1.id_handle = q.agent.rocp_agent.id_handle
    · rw [if_pos hc]
      rw [ih (q.register_callback p.1 p.2.2.1 p.2.2.2) hu']
      rw [Queue.register_callback_agent]
      by_cases hid : id = p.1
      · subst hid
        rw [lookupA_eq_none_of_not_mem_keys rest p.1 hp]
        simp only [lookupA, if_pos rfl, Queue.register_callback, lookupA_insertA, if_pos rfl,
          if_pos hc]
        simp [hc]
      · have hid' : ¬ p.1 = id := fun hh => hid hh.symm
        simp only [lookupA, if_neg hid', Queue.register_callback, lookupA_insertA, if_neg hid]
    · rw [if_neg hc]
      rw [ih q hu']
      by_cases hid : id = p.1
      · subst hid
        rw [lookupA_eq_none_of_not_mem_keys rest p.1 hp]
        simp only [lookupA, if_pos rfl, if_neg hc]
        simp [hc]
      · have hid' : ¬ p.1 = id := fun hh => hid hh.symm
        simp only [lookupA, if_neg hid']

theorem lookupA_backfillQueue_empty (reg : List (ClientID × RegEntry)) (q : Queue)
    (hu : keysUniq reg) (hq : q.callbacks = []) (id : ClientID) :
    lookupA (backfillQueue reg q).callbacks id =
      snapshotOf reg q.agent.rocp_agent.id_handle id := by
  rw [lookupA_backfillQueue reg q hu id]
  unfold snapshotOf
  cases h : lookupA reg id with
  | none => simp [hq, lookupA]
  | some e =>
    by_cases hc : e.1.id_handle = q.agent.rocp_agent.id_handle
    · simp [hc]
    · simp [hc, hq, lookupA]

theorem goodState_add_queue (s : QueueController) (hs : goodState s)
    (hq : Nat) (q0 : Queue) (hq0 : q0.callbacks = []) :
    goodState (s.add_queue hq q0) := by
  obtain ⟨u1, u2, inv, ib, hn⟩ := hs
  refine ⟨keysUniq_insertA _ _ _ u1, u2, ?_, ib, hn⟩
  intro h q hlook id
  have hlook' : lookupA (insertA s.queues hq (backfillQueue s.callback_cache q0)) h =
      some q := hlook
  rw [lookupA_insertA] at hlook'
  show lookupA q.callbacks id = snapshotOf s.callback_cache q.agent.rocp_agent.id_handle id
  by_cases hh : h = hq
  · rw [if_pos hh] at hlook'
    injection hlook' with hqq
    rw [← hqq, backfillQueue_agent]
    exact lookupA_backfillQueue_empty _ _ u2 hq0 id
  · rw [if_neg hh] at hlook'
    exact inv h q hlook' id

theorem lookupA_fresh_id_none (s : QueueController) (ib : idBound s) :
    lookupA s.callback_cache s.next_client_id = none := by
  cases h : lookupA s.callback_cache s.next_client_id with
  | none => rfl
  | some e => exact absurd (ib _ e h) (lt_irrefl _)

theorem goodState_add_callback (s : QueueController) (hs : goodState s)
    (agent : RocpAgent) (qcb ccb : Nat) :
    goodState (s.add_callback agent qcb ccb).2 := by
  obtain ⟨u1, u2, inv, ib, hn⟩ := hs
  have hfresh := lookupA_fresh_id_none s ib
  refine ⟨?_, keysUniq_insertA _ _ _ u2, ?_, ?_, ?_⟩
  · show keysUniq (mapValsA
      (fun _ q =>
        if q.agent.rocp_agent.id_handle = agent.id_handle then
          q.register_callback s.next_client_id qcb ccb
        else q) s.queues)
    exact keysUniq_mapValsA _ _ u1
  · intro h q' hlook id
    have hlook' : lookupA (mapValsA
        (fun _ q =>
          if q.agent.rocp_agent.id_handle = agent.id_handle then
            q.register_callback s.next_client_id qcb ccb
          else q) s.queues) h = some q' := hlook
    rw [lookupA_mapValsA] at hlook'
    show lookupA q'.callbacks id =
      snapshotOf (insertA s.callback_cache s.next_client_id (agent, qcb, ccb))
        q'.agent.rocp_agent.id_handle id
    cases hq : lookupA s.queues h with
    | none =>
      rw [hq] at hlook'
      cases hlook'
    | some q =>
      rw [hq, Option.map_some'] at hlook'
      injection hlook' with hf
      rw [← hf]
      have hinv := inv h q hq
      by_cases hm : q.agent.rocp_agent.id_handle = agent.id_handle
      · rw [if_pos hm, Queue.register_callback_agent]
        show lookupA (insertA q.callbacks s.next_client_id (qcb, ccb)) id = _
        rw [lookupA_insertA]
        unfold snapshotOf
        rw [lookupA_insertA]
        by_cases hid : id = s.next_client_id
        · rw [if_pos hid, if_pos hid]
          simp [hm.symm]
        · rw [if_neg hid, if_neg hid]
          have := hinv id
          unfold snapshotOf at this
          exact this
      · rw [if_neg hm]
        unfold snapshotOf
        rw [lookupA_insertA]
        by_cases hid : id = s.next_client_id
        · rw [if_pos hid]
          have hne : ¬ agent.id_handle = q.agent.rocp_agent.id_handle :=
            fun hh => hm hh.symm
          have h2 := hinv s.next_client_id
          unfold snapshotOf at h2
          rw [hfresh] at h2
          rw [hid, h2]
          simp [hne]
        · rw [if_neg hid]
          have := hinv id
          unfold snapshotOf at this
          exact this
  · intro id e hl
    have hl' : lookupA (insertA s.callback_cache s.next_client_id (agent, qcb, ccb)) id =
        some e := hl
    rw [lookupA_insertA] at hl'
    show id < s.next_client_id + 1
    by_cases hid : id = s.next_client_id
    · rw [hid]
      exact Nat.lt_succ_self _
    · rw [if_neg hid] at hl'
      exact Nat.lt_succ_of_lt (ib id e hl')
  · exact Nat.le_succ_of_le hn

theorem goodState_remove_callback (s : QueueController) (hs : goodState s)
    (id0 : ClientID) : goodState (s.remove_callback id0) := by
  obtain ⟨u1, u2, inv, ib, hn⟩ := hs
  refine ⟨?_, keysUniq_eraseA _ _ u2, ?_, ?_, hn⟩
  · show keysUniq (mapValsA (fun _ q => q.remove_callback id0) s.queues)
    exact keysUniq_mapValsA _ _ u1
  · intro h q' hlook id
    have hlook' : lookupA (mapValsA (fun _ q => q.remove_callback id0) s.queues) h =
        some q' := hlook
    rw [lookupA_mapValsA] at hlook'
    show lookupA q'.callbacks id =
      snapshotOf (eraseA s.callback_cache id0) q'.agent.rocp_agent.id_handle id
    cases hq : lookupA s.queues h with
    | none =>
      rw [hq] at hlook'
      cases hlook'
    | some q =>
      rw [hq, Option.map_some'] at hlook'
      injection hlook' with hf
      rw [← hf]
      have hinv := inv h q hq
      show lookupA (eraseA q.callbacks id0) id = _
      rw [lookupA_eraseA]
      unfold snapshotOf
      rw [lookupA_eraseA]
      by_cases hid : id = id0
      · rw [if_pos hid, if_pos hid]
      · rw [if_neg hid, if_neg hid]
        have := hinv id
        unfold snapshotOf at this
        exact this
  · intro id e hl
    have hl' : lookupA (eraseA s.callback_cache id0) id = some e := hl
    rw [lookupA_eraseA] at hl'
    by_cases hid : id = id0
    · rw [if_pos hid] at hl'
      cases hl'
    · rw [if_neg hid] at hl'
      exact ib id e hl'

theorem goodState_destory_queue (s : QueueController) (hs : goodState s)
    (h : Nat) : goodState (s.destory_queue h) := by
  obtain ⟨u1, u2, inv, ib, hn⟩ := hs
  refine ⟨keysUniq_eraseA _ _ u1, u2, ?_, ib, hn⟩
  intro h' q hlook id
  have hl : lookupA (eraseA s.queues h) h' = some q := hlook
  rw [lookupA_eraseA] at hl
  by_cases hh : h' = h
  · rw [if_pos hh] at hl
    cases hl
  · rw [if_neg hh] at hl
    exact inv h' q hl id

theorem goodState_initial : goodState initialController := by
  refine ⟨List.Pairwise.nil, List.Pairwise.nil, ?_, ?_, le_refl 1⟩
  · intro h q hl
    cases hl
  · intro id e hl
    cases hl

theorem goodState_stepCall (t : TraceState) (ht : goodState t.ctrl) (c : Call) :
    goodState (stepCall t c).ctrl := by
  cases c with
  | addQueue h cache e d => exact goodState_add_queue _ ht _ _ rfl
  | addCallback a qcb ccb => exact goodState_add_callback _ ht _ _ _
  | removeCallback id => exact goodState_remove_callback _ ht _
  | destroyQueue h => exact goodState_destory_queue _ ht _

theorem goodState_runCallsFrom (t : TraceState) (ht : goodState t.ctrl)
    (calls : List Call) : goodState (runCallsFrom t calls).ctrl := by
  induction calls generalizing t with
  | nil => exact ht
  | cons c rest ih => exact ih _ (goodState_stepCall t ht c)

theorem goodState_runCalls (calls : List Call) : goodState (runCalls calls).ctrl :=
  goodState_runCallsFrom _ goodState_initial calls

theorem stepCall_not_add (t : TraceState) (c : Call) (hc : isAddCallbackCall c = false) :
    (stepCall t c).ctrl.next_client_id = t.ctrl.next_client_id ∧
      (stepCall t c).issued = t.issued := by
  cases c with
  | addCallback a qcb ccb => simp [isAddCallbackCall] at hc
  | addQueue hq cache e d => exact ⟨rfl, rfl⟩
  | removeCallback id => exact ⟨rfl, rfl⟩
  | destroyQueue hq => exact ⟨rfl, rfl⟩

theorem runCallsFrom_issued_next (calls : List Call) : ∀ t : TraceState,
    (runCallsFrom t calls).issued =
      t.issued ++ List.range' t.ctrl.next_client_id (countAddCallbacks calls) ∧
    (runCallsFrom t calls).ctrl.next_client_id =
      t.ctrl.next_client_id + countAddCallbacks calls := by
  induction calls with
  | nil =>
    intro t
    simp [runCallsFrom, countAddCallbacks]
  | cons c rest ih =>
    intro t
    have hstep : runCallsFrom t (c :: rest) = runCallsFrom (stepCall t c) rest := rfl
    rw [hstep]
    obtain ⟨ih1, ih2⟩ := ih (stepCall t c)
    cases hc : isAddCallbackCall c with
    | false =>
      obtain ⟨hn, hi⟩ := stepCall_not_add t c hc
      rw [ih1, ih2, hn, hi]
      unfold countAddCallbacks
      rw [List.countP_cons, hc]
      simp
    | true =>
      cases c with
      | addQueue hq cache e d => simp [isAddCallbackCall] at hc
      | removeCallback id => simp [isAddCallbackCall] at hc
      | destroyQueue hq => simp [isAddCallbackCall] at hc
      | addCallback a qcb ccb =>
        have hn : (stepCall t (Call.addCallback a qcb ccb)).ctrl.next_client_id =
            t.ctrl.next_client_id + 1 := rfl
        have hi : (stepCall t (Call.addCallback a qcb ccb)).issued =
            t.issued ++ [t.ctrl.next_client_id] := rfl
        rw [ih1, ih2, hn, hi]
        unfold countAddCallbacks
        rw [List.countP_cons, hc, if_pos rfl]
        constructor
        · rw [List.range'_succ, List.append_assoc]
          rfl
        · show t.ctrl.next_client_id + 1 + List.countP isAddCallbackCall rest =
            t.ctrl.next_client_id + (List.countP isAddCallbackCall rest + 1)
          rw [Nat.add_assoc, Nat.add_comm 1 (List.countP isAddCallbackCall rest)]

theorem runCalls_issued (calls : List Call) :
    (runCalls calls).issued = List.range' 1 (countAddCallbacks calls) := by
  have := (runCallsFrom_issued_next calls (TraceState.mk initialController [])).1
  simpa [runCalls, initialController] using this

theorem lookupA_gather_lt (agents : List EnumAgent) : ∀ i k, k < i →
    lookupA (gatherSupportedAgents i agents) k = none := by
  induction agents with
  | nil =>
    intro i k hk
    rfl
  | cons a rest ih =>
    intro i k hk
    unfold gatherSupportedAgents
    by_cases hg : a.rocp_agent.type = AgentType.GPU
    · rw [if_pos hg]
      unfold constructAgentCache
      by_cases hcc : a.cache_constructible
      · rw [if_pos hcc]
        show lookupA ((i, AgentCache.mk a.rocp_agent a.hsa_agent_handle i) ::
          gatherSupportedAgents (i + 1) rest) k = none
        unfold lookupA
        rw [if_neg (show ¬ i = k by omega)]
        exact ih (i + 1) k (by omega)
      · rw [if_neg hcc]
        exact ih (i + 1) k (by omega)
    · rw [if_neg hg]
      exact ih (i + 1) k (by omega)

theorem lookupA_gatherSupportedAgents (agents : List EnumAgent) : ∀ i j,
    lookupA (gatherSupportedAgents i agents) (i + j) =
      (match agents.get? j with
       | some a =>
         if a.rocp_agent.type = AgentType.GPU ∧ a.cache_constructible = true then
           some (AgentCache.mk a.rocp_agent a.hsa_agent_handle (i + j))
         else none
       | none => none) := by
  induction agents with
  | nil =>
    intro i j
    simp [gatherSupportedAgents, lookupA]
  | cons a rest ih =>
    intro i j
    unfold gatherSupportedAgents
    cases j with
    | zero =>
      simp only [Nat.add_zero, List.get?]
      by_cases hg : a.rocp_agent.type = AgentType.GPU
      · rw [if_pos hg]
        unfold constructAgentCache
        by_cases hcc : a.cache_constructible
        · rw [if_pos hcc]
          show lookupA ((i, AgentCache.mk a.rocp_agent a.hsa_agent_handle i) ::
            gatherSupportedAgents (i + 1) rest) i = _
          unfold lookupA
          rw [if_pos rfl]
          simp [hg, hcc]
        · rw [if_neg hcc]
          rw [lookupA_gather_lt rest (i + 1) i (by omega)]
          simp [hcc]
      · rw [if_neg hg]
        rw [lookupA_gather_lt rest (i + 1) i (by omega)]
        simp [hg]
    | succ j' =>
      have hkey : i + (j' + 1) = (i + 1) + j' := by omega
      by_cases hg : a.rocp_agent.type = AgentType.GPU
      · rw [if_pos hg]
        unfold constructAgentCache
        by_cases hcc : a.cache_constructible
        · rw [if_pos hcc]
          show lookupA ((i, AgentCache.mk a.rocp_agent a.hsa_agent_handle i) ::
            gatherSupportedAgents (i + 1) rest) (i + (j' + 1)) = _
          unfold lookupA
          rw [if_neg (show ¬ i = i + (j' + 1) by omega)]
          rw [hkey, ih (i + 1) j']
          rfl
        · rw [if_neg hcc, hkey, ih (i + 1) j']
          rfl
      · rw [if_neg hg, hkey, ih (i + 1) j']
        rfl

theorem mapValsA_mapValsA {K V : Type} (f g : K → V → V) (l : List (K × V)) :
    mapValsA f (mapValsA g l) = mapValsA (fun k v => f k (g k v)) l := by
  unfold mapValsA
  rw [List.map_map]
  rfl

theorem Queue.remove_callback_idem (q : Queue) (id : ClientID) :
    (q.remove_callback id).remove_callback id = q.remove_callback id := by
  unfold Queue.remove_callback
  rw [eraseA_eraseA]

theorem Queue.remove_callback_of_none (q : Queue) (id : ClientID)
    (h : lookupA q.callbacks id = none) : q.remove_callback id = q := by
  unfold Queue.remove_callback
  rw [eraseA_of_lookupA_none _ _ h]

theorem runAppEvents_native (table : CoreApiTable)
    (hc : table.hsa_queue_create_fn ≠ QueueCreateFn.hook)
    (hd : table.hsa_queue_destroy_fn ≠ QueueDestroyFn.hook) :
    ∀ (activity : List AppEvent) (s t : QueueController),
      runAppEvents table s activity = some t → t = s := by
  intro activity
  induction activity with
  | nil =>
    intro s t ht
    injection ht with h
    exact h.symm
  | cons e rest ih =>
    intro s t ht
    cases e with
    | createReq a ec d hq =>
      unfold runAppEvents dispatchEvent at ht
      cases hcf : table.hsa_queue_create_fn with
      | hook => exact absurd hcf hc
      | native tag =>
        rw [hcf] at ht
        simp only [Option.some_bind] at ht
        exact ih s t ht
    | destroyReq hq =>
      unfold runAppEvents dispatchEvent at ht
      cases hdf : table.hsa_queue_destroy_fn with
      | hook => exact absurd hdf hd
      | native tag =>
        rw [hdf] at ht
        simp only [Option.some_bind] at ht
        exact ih s t ht

/-- Claim C1: after every sequence of `add_queue`, `add_callback`,
`remove_callback` (and `destory_queue`) calls, every Proxy Queue in the
live-queue table has a subscription snapshot containing exactly the Callback
Registry entries whose target agent matches that queue's agent: `add_queue`
backfills pre-existing matching entries, `add_callback` installs the new
entry on every matching live queue, and `remove_callback` leaves no snapshot
containing the removed identifier. -/
theorem C1_snapshot_matches_registry (calls : List Call) :
    snapshotsInv (runCalls calls).ctrl :=
  (goodState_runCalls calls).2.2.1

theorem C1_witness :
    snapshotsInv (runCalls
      [Call.addCallback (RocpAgent.mk 1 AgentType.GPU) 7 8,
       Call.addQueue 42 (AgentCache.mk (RocpAgent.mk 1 AgentType.GPU) 11 0) 0 0]).ctrl :=
  C1_snapshot_matches_registry
    [Call.addCallback (RocpAgent.mk 1 AgentType.GPU) 7 8,
     Call.addQueue 42 (AgentCache.mk (RocpAgent.mk 1 AgentType.GPU) 11 0) 0 0]

/-- Claim C5: over any call sequence, the Subscription Identifiers returned by the
`add_callback` calls are exactly 1, 2, 3, ... in order: pairwise distinct and
strictly increasing, the first is 1, 0 is never returned, and no identifier
is ever reused within the process lifetime. -/
theorem C5_client_ids (calls : List Call) :
    (runCalls calls).issued = List.range' 1 (countAddCallbacks calls) ∧
    List.Pairwise (fun x1 x2 => x1 < x2) (runCalls calls).issued ∧
    (0 : ClientID) ∉ (runCalls calls).issued ∧
    ((runCalls calls).issued ≠ [] → (runCalls calls).issued.head? = some 1) := by
  have heq := runCalls_issued calls
  refine ⟨heq, ?_, ?_, ?_⟩
  · rw [heq]
    exact List.pairwise_lt_range' 1 _
  · rw [heq]
    intro hmem
    rw [List.mem_range'_1] at hmem
    omega
  · intro hne
    rw [heq] at hne ⊢
    cases hc : countAddCallbacks calls with
    | zero =>
      rw [hc] at hne
      simp [List.range'] at hne
    | succ n =>
      rw [List.range'_succ]
      rfl

theorem C5_witness :
    (runCalls [Call.addCallback (RocpAgent.mk 1 AgentType.GPU) 7 8,
       Call.addCallback (RocpAgent.mk 2 AgentType.GPU) 9 10]).issued = [1, 2] ∧
    (runCalls [Call.addCallback (RocpAgent.mk 1 AgentType.GPU) 7 8,
       Call.addCallback (RocpAgent.mk 2 AgentType.GPU) 9 10]).issued.head? = some 1 := by
  have h := C5_client_ids
    [Call.addCallback (RocpAgent.mk 1 AgentType.GPU) 7 8,
     Call.addCallback (RocpAgent.mk 2 AgentType.GPU) 9 10]
  exact ⟨h.1, h.2.2.2 (by decide)⟩

/-- Claim C6: destroying a queue is idempotent and total: a second destroy of the
same handle is a no-op, destroying an absent handle leaves the controller
unchanged, and the installed destroy-queue hook returns success in every
case. -/
theorem C6_destroy_idempotent (s : QueueController) (h : Nat) :
    (s.destory_queue h).destory_queue h = s.destory_queue h ∧
    (lookupA s.queues h = none → s.destory_queue h = s) ∧
    (destroy_queue s h).1 = HsaStatus.success := by
  refine ⟨?_, ?_, rfl⟩
  · unfold QueueController.destory_queue
    rw [eraseA_eraseA]
  · intro hnone
    unfold QueueController.destory_queue
    rw [eraseA_of_lookupA_none _ _ hnone]

theorem C6_witness :
    (initialController.destory_queue 5).destory_queue 5 =
      initialController.destory_queue 5 ∧
    initialController.destory_queue 5 = initialController ∧
    (destroy_queue initialController 5).1 = HsaStatus.success :=
  ⟨(C6_destroy_idempotent initialController 5).1,
   (C6_destroy_idempotent initialController 5).2.1 rfl,
   (C6_destroy_idempotent initialController 5).2.2⟩

/-- Claim C9: the controller operation remove_callback is total and idempotent: removing the same
identifier twice equals removing it once, and removing an identifier absent
from the registry of any reachable state leaves the whole controller state
(registry and every queue's snapshot) unchanged. -/
theorem C9_remove_callback_idempotent :
    (∀ (s : QueueController) (id : ClientID),
      (s.remove_callback id).remove_callback id = s.remove_callback id) ∧
    (∀ (calls : List Call) (id : ClientID),
      lookupA (runCalls calls).ctrl.callback_cache id = none →
        (runCalls calls).ctrl.remove_callback id = (runCalls calls).ctrl) := by
  constructor
  · intro s id
    unfold QueueController.remove_callback
    rw [eraseA_eraseA, mapValsA_mapValsA]
    have hfun : (fun (k : Nat) (q : Queue) =>
        (q.remove_callback id).remove_callback id) =
        (fun (k : Nat) (q : Queue) => q.remove_callback id) := by
      funext k q
      exact Queue.remove_callback_idem q id
    rw [hfun]
  · intro calls id hl
    obtain ⟨u1, u2, inv, ib, hn⟩ := goodState_runCalls calls
    unfold QueueController.remove_callback
    rw [eraseA_of_lookupA_none _ _ hl]
    rw [mapValsA_id_of_forall]
    · intro p hp
      have hlq := lookupA_of_mem (runCalls calls).ctrl.queues p u1 hp
      have hinv := inv p.1 p.2 hlq id
      unfold snapshotOf at hinv
      rw [hl] at hinv
      exact Queue.remove_callback_of_none p.2 id hinv

theorem C9_witness :
    ((initialController.remove_callback 5).remove_callback 5 =
      initialController.remove_callback 5) ∧
    (runCalls []).ctrl.remove_callback 5 = (runCalls []).ctrl :=
  ⟨C9_remove_callback_idempotent.1 initialController 5,
   C9_remove_callback_idempotent.2 [] 5 rfl⟩

/-- Claim C10: the controller operation add_queue called on a handle already present in the live-queue table
succeeds without any assertion or error: the table afterwards maps the
handle to the newly supplied (backfilled) Proxy Queue, the previously stored
queue is discarded, and all other entries are untouched. -/
theorem C10_add_queue_replaces (s : QueueController) (h : Nat) (q0 : Queue)
    (_hex : (lookupA s.queues h).isSome = true) :
    lookupA (s.add_queue h q0).queues h =
      some (backfillQueue s.callback_cache q0) ∧
    ∀ h', h' ≠ h → lookupA (s.add_queue h q0).queues h' = lookupA s.queues h' := by
  constructor
  · show lookupA (insertA s.queues h (backfillQueue s.callback_cache q0)) h = _
    rw [lookupA_insertA, if_pos rfl]
  · intro h' hne
    show lookupA (insertA s.queues h (backfillQueue s.callback_cache q0)) h' = _
    rw [lookupA_insertA, if_neg hne]

theorem C10_witness :
    lookupA ((initialController.add_queue 42
        (Queue.mk (AgentCache.mk (RocpAgent.mk 1 AgentType.GPU) 11 0) 42 0 0 [])).add_queue 42
        (Queue.mk (AgentCache.mk (RocpAgent.mk 2 AgentType.GPU) 12 1) 42 1 2 [])).queues 42 =
      some (Queue.mk (AgentCache.mk (RocpAgent.mk 2 AgentType.GPU) 12 1) 42 1 2 []) :=
  (C10_add_queue_replaces
    (initialController.add_queue 42
      (Queue.mk (AgentCache.mk (RocpAgent.mk 1 AgentType.GPU) 11 0) 42 0 0 []))
    42 (Queue.mk (AgentCache.mk (RocpAgent.mk 2 AgentType.GPU) 12 1) 42 1 2 []) rfl).1

theorem enableIntercepter_eq_any (ctxs : List Context) :
    enableIntercepter ctxs = ctxs.any contextNeedsIntercept := by
  induction ctxs with
  | nil => rfl
  | cons c rest ih =>
    rw [List.any_cons, ← ih]
    cases hcc : c.counter_collection with
    | true => simp [enableIntercepter, contextNeedsIntercept, hcc]
    | false =>
      cases hbt : c.buffered_tracer with
      | none => simp [enableIntercepter, contextNeedsIntercept, hcc, hbt]
      | some bt =>
        cases hd : (bt.domains BufferTracingKind.KERNEL_DISPATCH ||
            bt.domains BufferTracingKind.MEMORY_COPY) with
        | true => simp [enableIntercepter, contextNeedsIntercept, hcc, hbt, hd]
        | false => simp [enableIntercepter, contextNeedsIntercept, hcc, hbt, hd]

/-- Claim C2: init overwrites the runtime's queue-create and queue-destroy
function pointers if and only if some registered context has
counter-collection enabled or buffered tracing enabled for the
kernel-dispatch or memory-copy domain; otherwise the native entry points are
left untouched and the live-queue table stays permanently empty under any
application queue activity. -/
theorem C2_policy_gating (s : QueueController) (core : CoreApiTable) (ext : AmdExtTable)
    (agents : List EnumAgent) (ctxs : List Context)
    (hcf : core.hsa_queue_create_fn ≠ QueueCreateFn.hook)
    (hdf : core.hsa_queue_destroy_fn ≠ QueueDestroyFn.hook)
    (hq : s.queues = []) :
    (((s.init core ext agents ctxs).2.hsa_queue_create_fn = QueueCreateFn.hook ∧
      (s.init core ext agents ctxs).2.hsa_queue_destroy_fn = QueueDestroyFn.hook) ↔
      ctxs.any contextNeedsIntercept = true) ∧
    (ctxs.any contextNeedsIntercept = false →
      (s.init core ext agents ctxs).2 = core ∧
      ∀ (activity : List AppEvent) (t : QueueController),
        runAppEvents (s.init core ext agents ctxs).2 (s.init core ext agents ctxs).1
          activity = some t → t.queues = []) := by
  rw [← enableIntercepter_eq_any ctxs]
  cases he : enableIntercepter ctxs with
  | true =>
    constructor
    · constructor
      · intro _
        rfl
      · intro _
        have hcore : (s.init core ext agents ctxs).2 =
            { core with
              hsa_queue_create_fn := QueueCreateFn.hook
              hsa_queue_destroy_fn := QueueDestroyFn.hook } := by
          unfold QueueController.init
          rw [he]
          simp
        rw [hcore]
        exact ⟨rfl, rfl⟩
    · intro hfalse
      cases hfalse
  | false =>
    have hcore : (s.init core ext agents ctxs).2 = core := by
      unfold QueueController.init
      rw [he]
      simp
    constructor
    · rw [hcore]
      constructor
      · intro hh
        exact absurd hh.1 hcf
      · intro hh
        cases hh
    · intro _
      refine ⟨hcore, ?_⟩
      intro activity t ht
      rw [hcore] at ht
      have := runAppEvents_native core hcf hdf activity _ t ht
      rw [this]
      show s.queues = []
      exact hq

theorem C2_witness :
    (initialController.init
      (CoreApiTable.mk (QueueCreateFn.native 3) (QueueDestroyFn.native 4))
      (AmdExtTable.mk 0) [] []).2 =
      CoreApiTable.mk (QueueCreateFn.native 3) (QueueDestroyFn.native 4) ∧
    ((initialController.init
      (CoreApiTable.mk (QueueCreateFn.native 3) (QueueDestroyFn.native 4))
      (AmdExtTable.mk 0) [] []).1).queues = [] := by
  have h := C2_policy_gating initialController
    (CoreApiTable.mk (QueueCreateFn.native 3) (QueueDestroyFn.native 4))
    (AmdExtTable.mk 0) [] [] (by decide) (by decide) rfl
  have h2 := (h.2 rfl).2 [AppEvent.createReq 1 0 0 42]
    (initialController.init
      (CoreApiTable.mk (QueueCreateFn.native 3) (QueueDestroyFn.native 4))
      (AmdExtTable.mk 0) [] []).1 rfl
  exact ⟨(h.2 rfl).1, h2⟩

/-- Claim C3: the installed create-queue hook terminates the process (fatal
diagnostic, modelled as `none`) whenever the requested agent handle is
absent from the supported-agent cache, and for a present handle it
constructs a Proxy Queue, inserts it into the live-queue table, and returns
success. -/
theorem C3_create_queue_hook (s : QueueController) (agent e d hq : Nat) :
    ((s.supported_agents.any (fun p => p.2.hsa_agent_handle == agent)) = true →
      ∃ s', create_queue s agent e d hq = some (HsaStatus.success, s') ∧
        (lookupA s'.queues hq).isSome = true) ∧
    ((s.supported_agents.any (fun p => p.2.hsa_agent_handle == agent)) = false →
      create_queue s agent e d hq = none) := by
  constructor
  · intro hany
    cases hf : s.supported_agents.find? (fun p => p.2.hsa_agent_handle == agent) with
    | none =>
      rw [List.find?_eq_none] at hf
      rw [List.any_eq_true] at hany
      obtain ⟨x, hx, hpx⟩ := hany
      exact absurd hpx (hf x hx)
    | some p =>
      refine ⟨s.add_queue hq (Queue.mk p.2 hq e d []), ?_, ?_⟩
      · unfold create_queue
        rw [hf]
      · show (lookupA (insertA s.queues hq
          (backfillQueue s.callback_cache (Queue.mk p.2 hq e d []))) hq).isSome = true
        rw [lookupA_insertA, if_pos rfl]
        rfl
  · intro hnone
    unfold create_queue
    rw [List.any_eq_false] at hnone
    rw [List.find?_eq_none.mpr hnone]

theorem C3_witness :
    (create_queue
      { initialController with
        supported_agents := [(0, AgentCache.mk (RocpAgent.mk 1 AgentType.GPU) 11 0)] }
      11 0 0 42).map (fun r => r.1) = some HsaStatus.success ∧
    create_queue
      { initialController with
        supported_agents := [(0, AgentCache.mk (RocpAgent.mk 1 AgentType.GPU) 11 0)] }
      99 0 0 43 = none := by
  have h := C3_create_queue_hook
    { initialController with
      supported_agents := [(0, AgentCache.mk (RocpAgent.mk 1 AgentType.GPU) 11 0)] }
    11 0 0 42
  have h2 := C3_create_queue_hook
    { initialController with
      supported_agents := [(0, AgentCache.mk (RocpAgent.mk 1 AgentType.GPU) 11 0)] }
    99 0 0 43
  refine ⟨?_, h2.2 (by decide)⟩
  obtain ⟨s', hs', _⟩ := h.1 (by decide)
  rw [hs']
  rfl

/-- Claim C4: agent isolation — whenever a live Proxy Queue's subscription
snapshot holds an entry for some identifier after any call sequence, the
registry's entry for that identifier targets exactly the queue's own agent
(a callback registered for agent A is never registered into a queue of a
different agent B). -/
theorem C4_agent_isolation (calls : List Call) (h : Nat) (q : Queue) (id : ClientID)
    (cbs : Nat × Nat)
    (hq : lookupA (runCalls calls).ctrl.queues h = some q)
    (hc : lookupA q.callbacks id = some cbs) :
    ∃ a qcb ccb,
      lookupA (runCalls calls).ctrl.callback_cache id = some (a, qcb, ccb) ∧
      a.id_handle = q.agent.rocp_agent.id_handle ∧ cbs = (qcb, ccb) := by
  have hinv := (goodState_runCalls calls).2.2.1 h q hq id
  rw [hc] at hinv
  unfold snapshotOf at hinv
  cases hl : lookupA (runCalls calls).ctrl.callback_cache id with
  | none =>
    rw [hl] at hinv
    cases hinv
  | some e =>
    rw [hl] at hinv
    obtain ⟨ea, ecb1, ecb2⟩ := e
    have hinv2 : some cbs =
        (if ea.id_handle = q.agent.rocp_agent.id_handle then some (ecb1, ecb2) else none) :=
      hinv
    by_cases hm : ea.id_handle = q.agent.rocp_agent.id_handle
    · rw [if_pos hm] at hinv2
      injection hinv2 with hcbs
      exact ⟨ea, ecb1, ecb2, rfl, hm, hcbs⟩
    · rw [if_neg hm] at hinv2
      cases hinv2

theorem C4_witness :
    lookupA ((runCalls
      [Call.addCallback (RocpAgent.mk 1 AgentType.GPU) 7 8,
       Call.addQueue 42 (AgentCache.mk (RocpAgent.mk 1 AgentType.GPU) 11 0) 0 0]).ctrl.callback_cache)
      1 ≠ none := by
  obtain ⟨a, qcb, ccb, hl, hag, hcbs⟩ := C4_agent_isolation
    [Call.addCallback (RocpAgent.mk 1 AgentType.GPU) 7 8,
     Call.addQueue 42 (AgentCache.mk (RocpAgent.mk 1 AgentType.GPU) 11 0) 0 0]
    42 (Queue.mk (AgentCache.mk (RocpAgent.mk 1 AgentType.GPU) 11 0) 42 0 0 [(1, 7, 8)])
    1 (7, 8) rfl rfl
  rw [hl]
  simp

/-- Claim C7: during supported-agent construction at init, every enumerated agent
of GPU type gets an attempted cache-entry construction (present in the cache
exactly when construction succeeds), every non-GPU agent gets none, and a
construction failure only skips that one agent — the outcome for each index
is independent of every other agent. -/
theorem C7_agent_cache_construction (agents : List EnumAgent) (j : Nat) (a : EnumAgent)
    (hj : agents.get? j = some a) :
    (a.rocp_agent.type = AgentType.GPU → a.cache_constructible = true →
      lookupA (gatherSupportedAgents 0 agents) j =
        some (AgentCache.mk a.rocp_agent a.hsa_agent_handle j)) ∧
    (a.rocp_agent.type ≠ AgentType.GPU →
      lookupA (gatherSupportedAgents 0 agents) j = none) ∧
    (a.cache_constructible = false →
      lookupA (gatherSupportedAgents 0 agents) j = none) := by
  have hchar := lookupA_gatherSupportedAgents agents 0 j
  rw [Nat.zero_add, hj] at hchar
  have hchar2 : lookupA (gatherSupportedAgents 0 agents) j =
      (if a.rocp_agent.type = AgentType.GPU ∧ a.cache_constructible = true then
        some (AgentCache.mk a.rocp_agent a.hsa_agent_handle j)
      else none) := hchar
  refine ⟨?_, ?_, ?_⟩
  · intro hg hc
    rw [hchar2, if_pos ⟨hg, hc⟩]
  · intro hg
    rw [hchar2, if_neg (fun hh => hg hh.1)]
  · intro hc
    rw [hchar2, if_neg ?_]
    intro hh
    rw [hc] at hh
    exact Bool.false_ne_true hh.2

theorem C7_witness :
    lookupA (gatherSupportedAgents 0
      [EnumAgent.mk (RocpAgent.mk 5 AgentType.GPU) 50 false,
       EnumAgent.mk (RocpAgent.mk 6 AgentType.CPU) 60 true,
       EnumAgent.mk (RocpAgent.mk 7 AgentType.GPU) 70 true]) 2 =
      some (AgentCache.mk (RocpAgent.mk 7 AgentType.GPU) 70 2) ∧
    lookupA (gatherSupportedAgents 0
      [EnumAgent.mk (RocpAgent.mk 5 AgentType.GPU) 50 false,
       EnumAgent.mk (RocpAgent.mk 6 AgentType.CPU) 60 true,
       EnumAgent.mk (RocpAgent.mk 7 AgentType.GPU) 70 true]) 0 = none ∧
    lookupA (gatherSupportedAgents 0
      [EnumAgent.mk (RocpAgent.mk 5 AgentType.GPU) 50 false,
       EnumAgent.mk (RocpAgent.mk 6 AgentType.CPU) 60 true,
       EnumAgent.mk (RocpAgent.mk 7 AgentType.GPU) 70 true]) 1 = none :=
  ⟨(C7_agent_cache_construction
      [EnumAgent.mk (RocpAgent.mk 5 AgentType.GPU) 50 false,
       EnumAgent.mk (RocpAgent.mk 6 AgentType.CPU) 60 true,
       EnumAgent.mk (RocpAgent.mk 7 AgentType.GPU) 70 true] 2
      (EnumAgent.mk (RocpAgent.mk 7 AgentType.GPU) 70 true) rfl).1 rfl rfl,
   (C7_agent_cache_construction
      [EnumAgent.mk (RocpAgent.mk 5 AgentType.GPU) 50 false,
       EnumAgent.mk (RocpAgent.mk 6 AgentType.CPU) 60 true,
       EnumAgent.mk (RocpAgent.mk 7 AgentType.GPU) 70 true] 0
      (EnumAgent.mk (RocpAgent.mk 5 AgentType.GPU) 50 false) rfl).2.2 rfl,
   (C7_agent_cache_construction
      [EnumAgent.mk (RocpAgent.mk 5 AgentType.GPU) 50 false,
       EnumAgent.mk (RocpAgent.mk 6 AgentType.CPU) 60 true,
       EnumAgent.mk (RocpAgent.mk 7 AgentType.GPU) 70 true] 1
      (EnumAgent.mk (RocpAgent.mk 6 AgentType.CPU) 60 true) rfl).2.1 (by decide)⟩

/-- Counterexample for claim C8: the claim that Subscription Identifier allocation is
lock-free and independent of the registry and live-queue-table locks is
false of the code: the atomic counter's load at position 1 of
`add_callback`'s operation sequence executes while the registry write lock
is already held. -/
theorem C8_counterexample :
    counterOpsLockFree addCallbackActions = false ∧
    addCallbackActions.get? 1 = some LockAction.atomicLoadCounter ∧
    locksHeldBefore addCallbackActions 1 = [LockName.registry] := by
  refine ⟨?_, rfl, ?_⟩ <;> decide

/-- Claim C8 as amended: identifier allocation uses an atomic counter (one atomic
load and one atomic increment per call), but both counter operations execute
inside the registry write-lock critical section, before the queue-table lock
is taken, so identifier issuance serializes with registry operations rather
than being lock-independent. -/
theorem C8_amended_counter_under_registry_lock :
    counterOpsUnderRegistryLock addCallbackActions = true ∧
    countAtomicIncs addCallbackActions = 1 ∧
    locksHeldBefore addCallbackActions 1 = [LockName.registry] ∧
    locksHeldBefore addCallbackActions 3 = [LockName.registry] := by
  refine ⟨?_, ?_, ?_, ?_⟩ <;> decide

end RocprofilerHsa
